import Mathlib

/-!
Verification of the IndexedDB utility layer (promise-based CRUD, querying
and transaction helpers over the browser-native IndexedDB API).

The development is a shallow embedding of the library's source:

* records and keys are modelled as simple JS-like values;
* an object store is modelled as its abstract IndexedDB state: the
  sequence of stored records in ascending primary-key order, together
  with its key path and secondary index configuration;
* each library operation (`getObjectData`, `queryObjectData`,
  `addObjectData`, `bulkAddObjectData`, `updateObjectData`,
  `deleteObjectData`, the `transaction` helper, the seeding step of
  `createDB`, and the `IndexedDBUtil` wrapper class) is translated into
  a Lean function; promise resolution/rejection becomes `Except`;
* host-level IndexedDB behaviour that the library delegates (key
  comparison, cursor traversal order, add/put constraint checks) is
  modelled explicitly and documented at each definition.
-/

/-- A JS value usable as a record field / IndexedDB key: a number or a
string.  IndexedDB orders numbers before strings. -/
inductive JSValue
  | vNum (n : Int)
  | vStr (s : String)
deriving DecidableEq, Repr

/-- Host key comparison: numbers compare numerically, strings
lexicographically, and every number sorts before every string. -/
def JSValue.ltb : JSValue → JSValue → Bool
  | .vNum a, .vNum b => a < b
  | .vNum _, .vStr _ => true
  | .vStr _, .vNum _ => false
  | .vStr a, .vStr b => a < b

/-- How a JS template literal renders the value (used in error messages). -/
def JSValue.display : JSValue → String
  | .vNum n => toString n
  | .vStr s => s

/-- A stored record: a finite map from field names to values, kept as an
association list (first binding wins, like a JS object literal). -/
structure JSRecord where
  fields : List (String × JSValue)
deriving DecidableEq, Repr

/-- Property access `record[name]`: `none` plays the role of `undefined`. -/
def JSRecord.getField (r : JSRecord) (name : String) : Option JSValue :=
  (r.fields.find? (fun p => p.1 == name)).map (fun p => p.2)

/-- Comparison of optional keys, used to keep store records sorted;
`undefined` (which a real store never holds as a key) sorts first. -/
def optKeyLtb : Option JSValue → Option JSValue → Bool
  | none, none => false
  | none, some _ => true
  | some _, none => false
  | some a, some b => JSValue.ltb a b

/-- Configuration of one secondary index (`IDBIndexConfig` with a single
field path), as consumed by the store-level constraint checks. -/
structure IndexConfigM where
  name : String
  keyPath : String
  unique : Bool
deriving DecidableEq, Repr

/-- Abstract state of one IndexedDB object store: its name, the field
path used as primary key, its secondary indices, and the stored records
in ascending primary-key order (the order `getAll` and a forward cursor
expose). -/
structure ObjectStore where
  name : String
  keyPath : String
  indices : List IndexConfigM
  records : List JSRecord
deriving DecidableEq, Repr

/-- The primary key of a record relative to a store's key path. -/
def ObjectStore.keyOf (s : ObjectStore) (r : JSRecord) : Option JSValue :=
  r.getField s.keyPath

/-- Insert a record into a key-sorted record list, keeping it sorted. -/
def insertByKey (kp : String) (r : JSRecord) : List JSRecord → List JSRecord
  | [] => [r]
  | x :: xs =>
    if optKeyLtb (x.getField kp) (r.getField kp) then
      x :: insertByKey kp r xs
    else r :: x :: xs

/-- Whether the store already holds a record with primary key `k`. -/
def keyExistsB (s : ObjectStore) (k : JSValue) : Bool :=
  s.records.any (fun x => x.getField s.keyPath == some k)

/-- Whether storing `r` would violate one of the store's unique indices
(a stored record already carries the same value in a uniquely indexed
field; records lacking the field are absent from the index). -/
def uniqueViolationB (s : ObjectStore) (r : JSRecord) : Bool :=
  s.indices.any (fun idx =>
    idx.unique &&
    match r.getField idx.keyPath with
    | some v => s.records.any (fun x => x.getField idx.keyPath == some v)
    | none => false)

/-- Host semantics of `IDBObjectStore.add` on a field-path-keyed store:
fails with `DataError` when the record yields no key, with
`ConstraintError` when the primary key already exists or a unique index
is violated; otherwise stores the record (in key order) and returns the
key.  Errors are the host error names, as surfaced in `error.message`. -/
def storeAdd (s : ObjectStore) (r : JSRecord) :
    Except String (JSValue × ObjectStore) :=
  match r.getField s.keyPath with
  | none => .error "DataError"
  | some k =>
    if keyExistsB s k then
      .error "ConstraintError"
    else if uniqueViolationB s r then
      .error "ConstraintError"
    else
      .ok (k, { s with records := insertByKey s.keyPath r s.records })

/-- Host semantics of `IDBObjectStore.put`: like `add` but an existing
record with the same primary key is replaced instead of raising
`ConstraintError`; unique-index checks ignore the replaced record. -/
def storePut (s : ObjectStore) (r : JSRecord) :
    Except String (JSValue × ObjectStore) :=
  match r.getField s.keyPath with
  | none => .error "DataError"
  | some k =>
    let others := s.records.filter (fun x => !(x.getField s.keyPath == some k))
    if s.indices.any (fun idx =>
        idx.unique &&
        match r.getField idx.keyPath with
        | some v => others.any (fun x => x.getField idx.keyPath == some v)
        | none => false) then
      .error "ConstraintError"
    else
      .ok (k, { s with records := insertByKey s.keyPath r others })

instance {ε α : Type} [DecidableEq ε] [DecidableEq α] :
    DecidableEq (Except ε α) := fun x y =>
  match x, y with
  | .ok a, .ok b =>
    if h : a = b then .isTrue (by rw [h])
    else .isFalse (fun hh => h (Except.ok.inj hh))
  | .error a, .error b =>
    if h : a = b then .isTrue (by rw [h])
    else .isFalse (fun hh => h (Except.error.inj hh))
  | .ok _, .error _ => .isFalse (fun hh => Except.noConfusion hh)
  | .error _, .ok _ => .isFalse (fun hh => Except.noConfusion hh)

/-- Errors the library surfaces: a message plus an optional code
(mirroring the `IndexedDBError` class hierarchy). -/
structure IndexedDBError where
  message : String
  code : Option String := none
deriving DecidableEq, Repr

/-- `StoreNotFoundError` as built by the library. -/
def storeNotFoundError (storeName : String) : IndexedDBError :=
  { message := "Object store \"" ++ storeName ++ "\" not found"
  , code := some "STORE_NOT_FOUND" }

/-- `TransactionError` as built by the library. -/
def transactionError (msg : String) : IndexedDBError :=
  { message := msg, code := some "TRANSACTION_ERROR" }

/-- JS `a || b` on the host error message: the fallback is used when the
message is absent/empty (falsy). -/
def orElseMsg (m : String) (fallback : String) : String :=
  if m.isEmpty then fallback else m

/-- `getObjectData`: promisified `store.get(key)` — resolves with the
matching record, or with `undefined` (`none`) when no record matches;
it only rejects when the host request itself errors, which the
sequential model never does. -/
def getObjectData (s : ObjectStore) (key : JSValue) :
    Except IndexedDBError (Option JSRecord) :=
  .ok (s.records.find? (fun r => r.getField s.keyPath == some key))

/-- `getAllObjectData`: promisified `store.getAll()` — every record, in
ascending primary-key order. -/
def getAllObjectData (s : ObjectStore) : Except IndexedDBError (List JSRecord) :=
  .ok s.records

/-- `clearObjectStore`: promisified `store.clear()`. -/
def clearObjectStore (s : ObjectStore) : Except IndexedDBError ObjectStore :=
  .ok { s with records := [] }

/-- `addObjectData`: `store.add(data)`, then on success `getAll` — the
promise resolves with the full record set after the insertion; a host
error is wrapped as `IndexedDBError` with the host message (or the
fallback text when that message is empty). -/
def addObjectData (s : ObjectStore) (data : JSRecord) :
    Except IndexedDBError (List JSRecord × ObjectStore) :=
  match storeAdd s data with
  | .error m =>
    .error { message := orElseMsg m "Failed to add data to store", code := none }
  | .ok (_, s') => .ok (s'.records, s')

/-- `putObjectData`: `store.put(data)` — resolves with the key of the
stored object only. -/
def putObjectData (s : ObjectStore) (data : JSRecord) :
    Except IndexedDBError (JSValue × ObjectStore) :=
  match storePut s data with
  | .error m =>
    .error { message := orElseMsg m "Failed to put data", code := none }
  | .ok (k, s') => .ok (k, s')

/-- Cursor direction (`IDBCursorDirection`). -/
inductive Direction
  | next | nextunique | prev | prevunique
deriving DecidableEq, Repr

/-- `QueryOptions`: optional index name, direction (default `next`),
optional limit, offset (default 0).  `limit` is `Option Nat` because the
source distinguishes an absent limit from a present one — but note the
source then tests it with JS truthiness, under which `0` and absent
coincide. -/
structure QueryOptions where
  index : Option String := none
  direction : Direction := .next
  limit : Option Nat := none
  offset : Nat := 0
deriving DecidableEq, Repr

/-- JS truthiness test `limit && counted >= limit` from the query loop:
false when `limit` is `undefined` or `0`. -/
def limitReached (limit : Option Nat) (counted : Nat) : Bool :=
  match limit with
  | none => false
  | some l => l != 0 && counted ≥ l

/-- Record comparison by one field, for index traversal order. -/
def fieldLtb (kp : String) (a b : JSRecord) : Bool :=
  optKeyLtb (a.getField kp) (b.getField kp)

/-- Stable insertion into a sorted list (equal keys keep first-inserted
first, matching an index's key-then-primary-key order). -/
def insSortedBy (lt : JSRecord → JSRecord → Bool) (x : JSRecord) :
    List JSRecord → List JSRecord
  | [] => [x]
  | y :: ys => if lt y x then y :: insSortedBy lt x ys else x :: y :: ys

/-- Stable insertion sort. -/
def sortRecordsBy (lt : JSRecord → JSRecord → Bool) :
    List JSRecord → List JSRecord
  | [] => []
  | x :: xs => insSortedBy lt x (sortRecordsBy lt xs)

/-- Keep only the first record of each run of an already-sorted list that
shares an index key (host behaviour of the `nextunique` direction). -/
def dedupByKey (kp : String) : List JSRecord → List JSRecord
  | [] => []
  | x :: xs =>
    x :: dedupByKey kp (xs.filter (fun y => !(y.getField kp == x.getField kp)))
termination_by l => l.length
decreasing_by
  simpa using Nat.lt_succ_of_le (List.length_filter_le _ _)

/-- The record list an index cursor traverses in `next` order: records
holding the indexed field, sorted by index key (ties in primary-key
order, which the stable sort of the key-ordered store preserves). -/
def indexTraversal (kp : String) (records : List JSRecord) : List JSRecord :=
  sortRecordsBy (fieldLtb kp) (records.filter (fun r => (r.getField kp).isSome))

/-- Host cursor traversal: the sequence of records
`source.openCursor(undefined, direction)` visits.  Over the store itself
primary keys are unique, so the `unique` directions coincide with their
plain counterparts; over an index, `nextunique`/`prevunique` visit the
first record of each index key.  An unknown index name makes
`store.index(index)` throw, which the library catches and wraps. -/
def cursorTraversal (s : ObjectStore) (opts : QueryOptions) :
    Except IndexedDBError (List JSRecord) :=
  match opts.index with
  | none =>
    .ok (match opts.direction with
      | .next => s.records
      | .nextunique => s.records
      | .prev => s.records.reverse
      | .prevunique => s.records.reverse)
  | some idxName =>
    match s.indices.find? (fun idx => idx.name == idxName) with
    | none =>
      .error { message := "No index named " ++ idxName, code := none }
    | some idx =>
      let base := indexTraversal idx.keyPath s.records
      .ok (match opts.direction with
        | .next => base
        | .nextunique => dedupByKey idx.keyPath base
        | .prev => base.reverse
        | .prevunique => (dedupByKey idx.keyPath base).reverse)

/-- The cursor success handler of `queryObjectData`, unrolled over the
traversal: while fewer than `offset` records were skipped, skip; then if
the (truthy) limit is reached, resolve with the collected results; else
collect the record and continue.  Exhaustion resolves with whatever was
collected. -/
def queryLoop (limit : Option Nat) (offset : Nat) :
    List JSRecord → Nat → Nat → List JSRecord → List JSRecord
  | [], _, _, results => results
  | r :: rest, skipped, counted, results =>
    if skipped < offset then
      queryLoop limit offset rest (skipped + 1) counted results
    else if limitReached limit counted then
      results
    else
      queryLoop limit offset rest skipped (counted + 1) (results ++ [r])

/-- `queryObjectData`: open a cursor over the store or a named index in
the requested direction and run the skip/limit collection loop. -/
def queryObjectData (s : ObjectStore) (opts : QueryOptions) :
    Except IndexedDBError (List JSRecord) :=
  match cursorTraversal s opts with
  | .error e => .error e
  | .ok visited => .ok (queryLoop opts.limit opts.offset visited 0 0 [])

/-- A key range (`IDBKeyRange`) with optional bounds. -/
structure KeyRangeM where
  lower : Option JSValue := none
  upper : Option JSValue := none
  lowerOpen : Bool := false
  upperOpen : Bool := false
deriving DecidableEq, Repr

/-- Whether a key falls inside a key range. -/
def KeyRangeM.containsKey (kr : KeyRangeM) (k : JSValue) : Bool :=
  (match kr.lower with
   | none => true
   | some lo => if kr.lowerOpen then JSValue.ltb lo k
                else JSValue.ltb lo k || lo == k) &&
  (match kr.upper with
   | none => true
   | some hi => if kr.upperOpen then JSValue.ltb k hi
                else JSValue.ltb k hi || k == hi)

/-- `countObjectData`: promisified `store.count(keyRange?)`. -/
def countObjectData (s : ObjectStore) (kr : Option KeyRangeM) :
    Except IndexedDBError Nat :=
  .ok (match kr with
    | none => s.records.length
    | some range =>
      (s.records.filter (fun r =>
        match r.getField s.keyPath with
        | some k => range.containsKey k
        | none => false)).length)

/-- The per-item loop of `bulkAddObjectData`: issue `store.add` for each
record; the promise resolves with the keys in input order once every add
succeeded, and rejects with the first add failure (host message, or the
indexed fallback text). -/
def bulkAddLoop (s : ObjectStore) (dataArray : List JSRecord) (idx : Nat) :
    Except IndexedDBError (List JSValue × ObjectStore) :=
  match dataArray with
  | [] => .ok ([], s)
  | data :: rest =>
    match storeAdd s data with
    | .error m =>
      .error { message := orElseMsg m
                 ("Failed to add item at index " ++ toString idx)
             , code := none }
    | .ok (k, s') =>
      match bulkAddLoop s' rest (idx + 1) with
      | .error e => .error e
      | .ok (ks, s'') => .ok (k :: ks, s'')

/-- `bulkAddObjectData`: an empty input resolves with `[]` immediately;
otherwise one add per record inside the same transaction. -/
def bulkAddObjectData (s : ObjectStore) (dataArray : List JSRecord) :
    Except IndexedDBError (List JSValue × ObjectStore) :=
  bulkAddLoop s dataArray 0

/-- The not-found message of the membership pass of `updateObjectData`,
as interpolated by the source template literal. -/
def updateNotFoundMsg (storeName kp : String) (key : JSValue) : String :=
  "There\x27s no object in the " ++ storeName ++ " whose " ++ kp ++
    " matches " ++ key.display ++ "."

/-- The message of the (unreachable within one consistent snapshot)
cursor-pass failure of `updateObjectData`. -/
def updateCursorMissMsg (kp : String) (key : JSValue) : String :=
  "Failed to locate object for update with " ++ kp ++ "=" ++ key.display

/-- How the `updateObjectData` promise can end.  Besides resolving and
rejecting it can fail to settle at all: an exception thrown synchronously
inside the cursor's success callback (the host `cursor.update` throwing
`DataError`) is unhandled by the source, so the transaction aborts and
neither `resolve` nor `reject` is ever called. -/
inductive UpdateResult
  | resolved (records : List JSRecord)
  | rejected (e : IndexedDBError)
  | unsettled
deriving DecidableEq, Repr

/-- Host unique-index check of the put performed by `cursor.update`:
some unique index of the store would hold `newData`'s indexed field
value for a record other than the one being replaced (the records whose
primary key differs from `target`'s). -/
def updateConstraintB (s : ObjectStore) (target newData : JSRecord) : Bool :=
  s.indices.any (fun idx =>
    idx.unique &&
    match newData.getField idx.keyPath with
    | some v =>
      (s.records.filter (fun x =>
        !(x.getField s.keyPath == target.getField s.keyPath))).any
        (fun x => x.getField idx.keyPath == some v)
    | none => false)

/-- Host in-line-key check of `cursor.update(newData)`: the new value's
key path must evaluate to the cursor's position key; a different or
missing key makes `cursor.update` throw `DataError` synchronously. -/
def cursorKeyMatchB (s : ObjectStore) (target newData : JSRecord) : Bool :=
  (newData.getField s.keyPath == target.getField s.keyPath) &&
    (newData.getField s.keyPath).isSome

/-- The cursor pass of `updateObjectData`: walk a forward cursor over the
store; at the first record whose `keyPath` field equals `key`, call
`cursor.update(newData)`.  The host throws `DataError` when `newData`'s
primary key differs from the cursor's key — the source has no catch
around the call, so the transaction aborts and the promise never settles;
the update request errors with `ConstraintError` on a unique-index
violation, which the source's `updateRequest.onerror` turns into a
rejection with the wrapped host message; otherwise the stored value is
replaced entirely and the promise resolves with the full updated record
list.  A cursor exhausted without a match rejects (`found` stays
false). -/
def cursorUpdatePass (s : ObjectStore) (kp : String) (key : JSValue)
    (newData : JSRecord) : List JSRecord → UpdateResult
  | [] => .rejected { message := updateCursorMissMsg kp key, code := none }
  | x :: xs =>
    if x.getField kp == some key then
      if cursorKeyMatchB s x newData then
        if updateConstraintB s x newData then
          .rejected { message := orElseMsg "ConstraintError"
                        "Update operation failed"
                    , code := none }
        else .resolved (newData :: xs)
      else .unsettled
    else
      match cursorUpdatePass s kp key newData xs with
      | .resolved rest => .resolved (x :: rest)
      | .rejected e => .rejected e
      | .unsettled => .unsettled

/-- `updateObjectData`: first fetch all records and check (by unordered
membership) that some record's `keyPath` field equals `key`, rejecting
with a descriptive not-found message otherwise; then run the cursor pass
over the store's records.  The pair's second component is the store
state after the call: updated on resolution, unchanged on rejection and
on an aborted (never-settling) update, since an erroring or aborted
transaction rolls back. -/
def updateObjectData (s : ObjectStore) (kp : String) (key : JSValue)
    (newData : JSRecord) : UpdateResult × ObjectStore :=
  match s.records.find? (fun d => d.getField kp == some key) with
  | none =>
    (.rejected { message := updateNotFoundMsg s.name kp key, code := none }, s)
  | some _ =>
    match cursorUpdatePass s kp key newData s.records with
    | .resolved newRecords =>
      (.resolved newRecords, { s with records := newRecords })
    | .rejected e => (.rejected e, s)
    | .unsettled => (.unsettled, s)

/-- The not-found message of `deleteObjectData`, as interpolated by the
source template literal. -/
def deleteNotFoundMsg (key : JSValue) (storeName : String) : String :=
  "Object with key \"" ++ key.display ++ "\" not found in store \"" ++
    storeName ++ "\""

/-- `deleteObjectData`: fetch the record first and reject (leaving the
store untouched) when it is `undefined`; otherwise delete by key and
resolve with the pair (deleted record, remaining records).  The pair's
second component is the store state after the call. -/
def deleteObjectData (s : ObjectStore) (key : JSValue) :
    Except IndexedDBError (JSRecord × List JSRecord) × ObjectStore :=
  match s.records.find? (fun r => r.getField s.keyPath == some key) with
  | none =>
    (.error { message := deleteNotFoundMsg key s.name, code := none }, s)
  | some deletedObject =>
    let remaining :=
      s.records.filter (fun r => !(r.getField s.keyPath == some key))
    (.ok (deletedObject, remaining), { s with records := remaining })

/-- The seeding loop of `createDB` for one store: `existingIds` is the
snapshot `new Set(existingData.map(item => item.id))` taken before the
loop; each seed item whose literal `id` field is not in the snapshot is
added.  A failing add errors the transaction, rejecting the open. -/
def seedLoop (existingIds : List (Option JSValue)) (s : ObjectStore) :
    List JSRecord → Except IndexedDBError ObjectStore
  | [] => .ok s
  | item :: rest =>
    if existingIds.contains (item.getField "id") then
      seedLoop existingIds s rest
    else
      match storeAdd s item with
      | .error m => .error (transactionError (orElseMsg m "Transaction failed"))
      | .ok (_, s') => seedLoop existingIds s' rest

/-- The per-store seeding step of `createDB.onsuccess`: fetch all
existing records, compute the set of their `id` fields, and add only the
seed items whose `id` is not already present. -/
def seedStoreData (s : ObjectStore) (data : List JSRecord) :
    Except IndexedDBError ObjectStore :=
  seedLoop (s.records.map (fun r => r.getField "id")) s data

/-- A database: a name and its object stores. -/
structure Database where
  name : String
  stores : List ObjectStore
deriving DecidableEq, Repr

/-- Replace the store with the same name (used to thread a store update
back into the database state). -/
def Database.setStore (d : Database) (st : ObjectStore) : Database :=
  { d with stores := d.stores.map (fun x => if x.name == st.name then st else x) }

/-- Transaction mode. -/
inductive TxMode
  | readonly | readwrite
deriving DecidableEq, Repr

/-- A `TransactionHandler`: the underlying transaction is scoped to a
fixed list of store names and a fixed mode over one database. -/
structure TransactionHandler where
  db : Database
  scope : List String
  mode : TxMode
deriving DecidableEq, Repr

/-- The `transaction` helper: `dbObject.transaction(stores, mode)` throws
a host `NotFoundError` when any requested name is not an object store of
the database; otherwise the handler is scoped to exactly those stores. -/
def transaction (dbObject : Database) (stores : List String) (mode : TxMode) :
    Except IndexedDBError TransactionHandler :=
  if stores.all (fun n => dbObject.stores.any (fun st => st.name == n)) then
    .ok { db := dbObject, scope := stores, mode := mode }
  else
    .error { message := "NotFoundError", code := none }

/-- `TransactionHandler.getStore`: `tx.objectStore(name)` throws when the
name was not in the transaction's scope or no such store exists; the
library catches the throw and rejects with `StoreNotFoundError(name)`;
otherwise it resolves with the store handle. -/
def TransactionHandler.getStore (tx : TransactionHandler) (name : String) :
    Except IndexedDBError ObjectStore :=
  if tx.scope.contains name then
    match tx.db.stores.find? (fun st => st.name == name) with
    | some st => .ok st
    | none => .error (storeNotFoundError name)
  else
    .error (storeNotFoundError name)

/-- `IDBStoreConfig`: store name, key configuration (the field path used
as primary key), index list, optional seed data. -/
structure IDBStoreConfigM where
  name : String
  keyPath : String
  indices : List IndexConfigM := []
  data : List JSRecord := []
deriving DecidableEq, Repr

/-- A fresh (empty) object store built from its configuration during the
upgrade step. -/
def storeOfConfig (c : IDBStoreConfigM) : ObjectStore :=
  { name := c.name, keyPath := c.keyPath, indices := c.indices, records := [] }

/-- The `IndexedDBUtil` class state: database name, version, the held
database handle (`null` = `none` until `init`, and again after `close`),
and the store configurations from the constructor. -/
structure IndexedDBUtil where
  dbName : String
  dbVersion : Nat
  db : Option Database := none
  stores : List IDBStoreConfigM
deriving DecidableEq, Repr

/-- The error `getDB` throws while the handle is null. -/
def notInitializedError : IndexedDBError :=
  { message := "Database not initialized. Call init() first.", code := none }

/-- `IndexedDBUtil.getDB`: throws `IndexedDBError` when the handle is
null, else returns the handle. -/
def IndexedDBUtil.getDB (u : IndexedDBUtil) : Except IndexedDBError Database :=
  match u.db with
  | none => .error notInitializedError
  | some d => .ok d

/-- `IndexedDBUtil.close`: closes the host connection and resets the
handle to null when one is held; a no-op otherwise. -/
def IndexedDBUtil.close (u : IndexedDBUtil) : IndexedDBUtil :=
  match u.db with
  | some _ => { u with db := none }
  | none => u

/-- Upgrade-plus-seed step of `createDB` on a fresh database: create each
configured store, then seed the ones carrying initial data. -/
def initStores : List IDBStoreConfigM → Except IndexedDBError (List ObjectStore)
  | [] => .ok []
  | c :: rest =>
    match seedStoreData (storeOfConfig c) c.data with
    | .error e => .error e
    | .ok st =>
      match initStores rest with
      | .error e => .error e
      | .ok sts => .ok (st :: sts)

/-- `IndexedDBUtil.init` on a fresh database: run `createDB` with the
configured stores and hold the resulting handle. -/
def IndexedDBUtil.init (u : IndexedDBUtil) :
    Except IndexedDBError IndexedDBUtil :=
  match initStores u.stores with
  | .error e => .error e
  | .ok sts => .ok { u with db := some { name := u.dbName, stores := sts } }

/-- The prefix every record method of the class shares: open a
single-store transaction via `this.transaction` (which calls
`this.getDB()` and so throws while the handle is null) and fetch the
store handle from it. -/
def IndexedDBUtil.txFor (u : IndexedDBUtil) (storeName : String)
    (mode : TxMode) : Except IndexedDBError (Database × ObjectStore) :=
  match u.getDB with
  | .error e => .error e
  | .ok d =>
    match transaction d [storeName] mode with
    | .error e => .error e
    | .ok tx =>
      match tx.getStore storeName with
      | .error e => .error e
      | .ok st => .ok (d, st)

/-- `IndexedDBUtil.get`. -/
def IndexedDBUtil.get (u : IndexedDBUtil) (storeName : String)
    (key : JSValue) : Except IndexedDBError (Option JSRecord) :=
  match u.txFor storeName .readonly with
  | .error e => .error e
  | .ok (_, st) => getObjectData st key

/-- `IndexedDBUtil.getAll`. -/
def IndexedDBUtil.getAll (u : IndexedDBUtil) (storeName : String) :
    Except IndexedDBError (List JSRecord) :=
  match u.txFor storeName .readonly with
  | .error e => .error e
  | .ok (_, st) => getAllObjectData st

/-- `IndexedDBUtil.query`. -/
def IndexedDBUtil.query (u : IndexedDBUtil) (storeName : String)
    (opts : QueryOptions) : Except IndexedDBError (List JSRecord) :=
  match u.txFor storeName .readonly with
  | .error e => .error e
  | .ok (_, st) => queryObjectData st opts

/-- `IndexedDBUtil.count`. -/
def IndexedDBUtil.count (u : IndexedDBUtil) (storeName : String)
    (kr : Option KeyRangeM) : Except IndexedDBError Nat :=
  match u.txFor storeName .readonly with
  | .error e => .error e
  | .ok (_, st) => countObjectData st kr

/-- `IndexedDBUtil.add`: the second component is the wrapper state after
the call (unchanged on failure). -/
def IndexedDBUtil.add (u : IndexedDBUtil) (storeName : String)
    (data : JSRecord) :
    Except IndexedDBError (List JSRecord) × IndexedDBUtil :=
  match u.txFor storeName .readwrite with
  | .error e => (.error e, u)
  | .ok (d, st) =>
    match addObjectData st data with
    | .error e => (.error e, u)
    | .ok (all, st') => (.ok all, { u with db := some (d.setStore st') })

/-- `IndexedDBUtil.put`. -/
def IndexedDBUtil.put (u : IndexedDBUtil) (storeName : String)
    (data : JSRecord) : Except IndexedDBError JSValue × IndexedDBUtil :=
  match u.txFor storeName .readwrite with
  | .error e => (.error e, u)
  | .ok (d, st) =>
    match putObjectData st data with
    | .error e => (.error e, u)
    | .ok (k, st') => (.ok k, { u with db := some (d.setStore st') })

/-- `IndexedDBUtil.bulkAdd`. -/
def IndexedDBUtil.bulkAdd (u : IndexedDBUtil) (storeName : String)
    (dataArray : List JSRecord) :
    Except IndexedDBError (List JSValue) × IndexedDBUtil :=
  match u.txFor storeName .readwrite with
  | .error e => (.error e, u)
  | .ok (d, st) =>
    match bulkAddObjectData st dataArray with
    | .error e => (.error e, u)
    | .ok (ks, st') => (.ok ks, { u with db := some (d.setStore st') })

/-- `IndexedDBUtil.update`: a throw inside the async method (null
handle, store not found) rejects its promise; otherwise the outcome is
`updateObjectData`'s (the wrapper state only changes on resolution). -/
def IndexedDBUtil.update (u : IndexedDBUtil) (storeName : String)
    (kp : String) (key : JSValue) (newData : JSRecord) :
    UpdateResult × IndexedDBUtil :=
  match u.txFor storeName .readwrite with
  | .error e => (.rejected e, u)
  | .ok (d, st) =>
    match updateObjectData st kp key newData with
    | (.resolved res, st') =>
      (.resolved res, { u with db := some (d.setStore st') })
    | (.rejected e, _) => (.rejected e, u)
    | (.unsettled, _) => (.unsettled, u)

/-- `IndexedDBUtil.delete`. -/
def IndexedDBUtil.delete (u : IndexedDBUtil) (storeName : String)
    (key : JSValue) :
    Except IndexedDBError (JSRecord × List JSRecord) × IndexedDBUtil :=
  match u.txFor storeName .readwrite with
  | .error e => (.error e, u)
  | .ok (d, st) =>
    match deleteObjectData st key with
    | (.error e, _) => (.error e, u)
    | (.ok res, st') => (.ok res, { u with db := some (d.setStore st') })

/-- `IndexedDBUtil.clear`. -/
def IndexedDBUtil.clear (u : IndexedDBUtil) (storeName : String) :
    Except IndexedDBError Unit × IndexedDBUtil :=
  match u.txFor storeName .readwrite with
  | .error e => (.error e, u)
  | .ok (d, st) =>
    match clearObjectStore st with
    | .error e => (.error e, u)
    | .ok st' => (.ok (), { u with db := some (d.setStore st') })

/-- A concrete record with an `id` and a `name` field, for witnesses. -/
def sampleRecord (i : Int) (nm : String) : JSRecord :=
  ⟨[("id", .vNum i), ("name", .vStr nm)]⟩

/-- A concrete three-record store keyed by `id` with a unique `email`
index, for witnesses. -/
def sampleStore : ObjectStore :=
  { name := "users"
  , keyPath := "id"
  , indices := [⟨"email", "email", true⟩]
  , records := [sampleRecord 1 "a", sampleRecord 2 "b", sampleRecord 3 "c"] }

/-- A concrete uninitialized wrapper (null handle), for witnesses. -/
def sampleUtil : IndexedDBUtil :=
  { dbName := "class-test-db", dbVersion := 1, db := none, stores := [] }

/-- A concrete two-store database, for witnesses. -/
def sampleDB : Database :=
  { name := "class-test-db"
  , stores := [sampleStore,
      { name := "posts", keyPath := "id", indices := [], records := [] }] }

example : getObjectData sampleStore (.vNum 9) = .ok none := by decide

example :
    (addObjectData sampleStore (sampleRecord 1 "dup")).isOk = false := by decide

example :
    (addObjectData sampleStore (sampleRecord 4 "d")).toOption.map
      (fun p => p.1.length) = some 4 := by decide

/-! ## Query length lemmas (claims C1 and C2) -/

/-- The collection loop under no limit: it skips the (still outstanding)
offset and collects every remaining visited record. -/
lemma queryLoop_length_none (offset : Nat) (l : List JSRecord) :
    ∀ (skipped counted : Nat) (acc : List JSRecord),
    (queryLoop none offset l skipped counted acc).length =
      acc.length + (l.length - (offset - skipped)) := by
  induction l with
  | nil => intro skipped counted acc; simp [queryLoop]
  | cons r rest ih =>
    intro skipped counted acc
    by_cases h : skipped < offset
    · simp only [queryLoop, if_pos h]
      rw [ih]
      simp only [List.length_cons]
      omega
    · simp only [queryLoop, if_neg h, limitReached, Bool.false_eq_true,
        if_false]
      rw [ih]
      simp only [List.length_append, List.length_cons, List.length_nil]
      omega

/-- The collection loop under a positive limit `m`: it collects at most
`m - counted` further records. -/
lemma queryLoop_length_some (offset m : Nat) (hm : m ≠ 0) (l : List JSRecord) :
    ∀ (skipped counted : Nat) (acc : List JSRecord),
    (queryLoop (some m) offset l skipped counted acc).length =
      acc.length + min (m - counted) (l.length - (offset - skipped)) := by
  induction l with
  | nil => intro skipped counted acc; simp [queryLoop]
  | cons r rest ih =>
    intro skipped counted acc
    by_cases h : skipped < offset
    · simp only [queryLoop, if_pos h]
      rw [ih]
      simp only [List.length_cons]
      omega
    · by_cases hc : m ≤ counted
      · have hreach : limitReached (some m) counted = true := by
          simp [limitReached, hm, hc]
        simp only [queryLoop, if_neg h, hreach, if_pos]
        omega
      · have hreach : limitReached (some m) counted = false := by
          simp [limitReached, hc]
        simp only [queryLoop, if_neg h, hreach, Bool.false_eq_true, if_false]
        rw [ih]
        simp only [List.length_append, List.length_cons, List.length_nil]
        omega

/-- A literal limit of `0` is falsy in the loop's `limit && counted >=
limit` test, so the loop behaves exactly as with no limit at all. -/
lemma queryLoop_some_zero (offset : Nat) (l : List JSRecord) :
    ∀ (skipped counted : Nat) (acc : List JSRecord),
    queryLoop (some 0) offset l skipped counted acc =
      queryLoop none offset l skipped counted acc := by
  induction l with
  | nil => intro skipped counted acc; rfl
  | cons r rest ih =>
    intro skipped counted acc
    simp only [queryLoop, limitReached]
    by_cases h : skipped < offset
    · simp only [if_pos h, ih]
    · simp only [if_neg h]
      simp [ih]

/-- Over the store itself (no index), a cursor in either direction
visits exactly the stored records. -/
lemma cursorTraversal_none (s : ObjectStore) (opts : QueryOptions)
    (hidx : opts.index = none) :
    ∃ visited, cursorTraversal s opts = .ok visited ∧
      visited.length = s.records.length := by
  cases hdir : opts.direction <;>
    simp [cursorTraversal, hidx, hdir]

/-- C1 (amended): for a query over a substore holding M records with
offset O, the resolved result list has length max(0, min(L, M − O)) when
the limit L is set and positive, and max(0, M − O) when the limit is
unset; an offset at least the total match count resolves with an empty
list rather than rejecting.  (A limit of zero is falsy in the source's
limit test, so it does not belong to the L-is-set case; see the
counterexample.) -/
theorem claim_C1_query_length (s : ObjectStore) (opts : QueryOptions)
    (hidx : opts.index = none) :
    ∃ res, queryObjectData s opts = .ok res ∧
      (∀ L, opts.limit = some L → L ≠ 0 →
        (res.length : Int) =
          max 0 (min (L : Int)
            ((s.records.length : Int) - (opts.offset : Int)))) ∧
      (opts.limit = none →
        (res.length : Int) =
          max 0 ((s.records.length : Int) - (opts.offset : Int))) ∧
      (s.records.length ≤ opts.offset → res = []) := by
  obtain ⟨visited, hvis, hlen⟩ := cursorTraversal_none s opts hidx
  refine ⟨queryLoop opts.limit opts.offset visited 0 0 [], ?_, ?_, ?_, ?_⟩
  · simp [queryObjectData, hvis]
  · intro L hL hL0
    rw [hL, queryLoop_length_some opts.offset L hL0]
    simp only [List.length_nil, Nat.zero_add, Nat.sub_zero]
    rw [hlen]
    omega
  · intro hL
    rw [hL, queryLoop_length_none]
    simp only [List.length_nil, Nat.zero_add, Nat.sub_zero]
    rw [hlen]
    omega
  · intro hoff
    rcases hlim : opts.limit with _ | L
    · refine List.length_eq_zero.mp ?_
      rw [queryLoop_length_none]
      simp only [List.length_nil]
      omega
    · by_cases hL0 : L = 0
      · subst hL0
        refine List.length_eq_zero.mp ?_
        rw [queryLoop_some_zero, queryLoop_length_none]
        simp only [List.length_nil]
        omega
      · refine List.length_eq_zero.mp ?_
        rw [queryLoop_length_some opts.offset L hL0]
        simp only [List.length_nil]
        omega

/-- C1 counterexample: with three records, offset 1 and limit set to 0,
the code resolves with both remaining records, while the claim's formula
max(0, min(L, M − O)) predicts an empty result. -/
theorem claim_C1_counterexample :
    queryObjectData sampleStore { limit := some 0, offset := 1 } =
      .ok [sampleRecord 2 "b", sampleRecord 3 "c"] ∧
    ¬ ((([sampleRecord 2 "b", sampleRecord 3 "c"] : List JSRecord).length :
          Int) =
        max 0 (min ((0 : Nat) : Int)
          ((sampleStore.records.length : Int) - ((1 : Nat) : Int)))) := by
  constructor
  · decide
  · decide

/-- C1 witness: limit 2 and offset 1 over the three-record store yields
2 = max(0, min(2, 3 − 1)) records. -/
theorem claim_C1_witness :
    ∃ res,
      queryObjectData sampleStore { limit := some 2, offset := 1 } =
        .ok res ∧
      (res.length : Int) =
        max 0 (min ((2 : Nat) : Int)
          ((sampleStore.records.length : Int) - ((1 : Nat) : Int))) := by
  obtain ⟨res, h1, h2, _, _⟩ :=
    claim_C1_query_length sampleStore { limit := some 2, offset := 1 } rfl
  exact ⟨res, h1, h2 2 rfl (by decide)⟩

/-- C2 (amended): a query whose options set the limit to zero does not
resolve empty — zero is falsy in the source's `limit && counted >= limit`
test, so the limit is treated as unset and the query collects every
record after the offset, exactly as a query without a limit. -/
theorem claim_C2_limit_zero (s : ObjectStore) (opts : QueryOptions)
    (hlim : opts.limit = some 0) :
    queryObjectData s opts = queryObjectData s { opts with limit := none } := by
  have htrav : cursorTraversal s { opts with limit := none } =
      cursorTraversal s opts := rfl
  simp only [queryObjectData, htrav, hlim]
  cases h : cursorTraversal s opts with
  | error e => rfl
  | ok visited =>
    show Except.ok (queryLoop (some 0) opts.offset visited 0 0 []) =
      Except.ok (queryLoop none opts.offset visited 0 0 [])
    rw [queryLoop_some_zero]

/-- C2 counterexample: limit 0 over the three-record store resolves with
all three records, not the empty list the claim requires. -/
theorem claim_C2_counterexample :
    queryObjectData sampleStore { limit := some 0 } =
      .ok [sampleRecord 1 "a", sampleRecord 2 "b", sampleRecord 3 "c"] ∧
    (.ok [sampleRecord 1 "a", sampleRecord 2 "b", sampleRecord 3 "c"] :
        Except IndexedDBError (List JSRecord)) ≠ .ok [] := by
  constructor
  · decide
  · decide

/-- C2 witness: the amended claim at a concrete input — limit 0 with
offset 2 behaves exactly as no limit with offset 2. -/
theorem claim_C2_witness :
    queryObjectData sampleStore { limit := some 0, offset := 2 } =
      queryObjectData sampleStore
        { ({ limit := some 0, offset := 2 } : QueryOptions) with
            limit := none } :=
  claim_C2_limit_zero sampleStore { limit := some 0, offset := 2 } rfl

/-! ## Insertion lemmas -/

/-- Ordered insertion adds exactly one record. -/
lemma length_insertByKey (kp : String) (r : JSRecord) (l : List JSRecord) :
    (insertByKey kp r l).length = l.length + 1 := by
  induction l with
  | nil => rfl
  | cons x xs ih =>
    simp only [insertByKey]
    by_cases h : optKeyLtb (x.getField kp) (r.getField kp)
    · simp [h, ih]
    · simp [h]

/-- The inserted record is a member of the insertion's result. -/
lemma self_mem_insertByKey (kp : String) (r : JSRecord) (l : List JSRecord) :
    r ∈ insertByKey kp r l := by
  induction l with
  | nil => simp [insertByKey]
  | cons x xs ih =>
    simp only [insertByKey]
    by_cases h : optKeyLtb (x.getField kp) (r.getField kp)
    · simp [h, ih]
    · simp [h]

/-- Ordered insertion keeps every previous record. -/
lemma mem_insertByKey_of_mem (kp : String) (r x : JSRecord)
    (l : List JSRecord) (hx : x ∈ l) : x ∈ insertByKey kp r l := by
  induction l with
  | nil => cases hx
  | cons y ys ih =>
    simp only [insertByKey]
    by_cases h : optKeyLtb (y.getField kp) (r.getField kp)
    · rcases List.mem_cons.mp hx with h1 | h1
      · simp [h, h1]
      · simp [h, ih h1]
    · simp only [if_neg h]
      rcases List.mem_cons.mp hx with h1 | h1
      · simp [h1]
      · simp [List.mem_cons, h1]

/-! ## Claim C8: get on an absent key -/

/-- C8: `get(key)` never rejects absent a host-level request error (the
sequential model has none), and on a store holding no record with the
requested primary key it resolves with the explicit absent value
`undefined` rather than rejecting. -/
theorem claim_C8_get_absent (s : ObjectStore) (key : JSValue) :
    (∃ v, getObjectData s key = .ok v) ∧
    ((∀ r ∈ s.records, ¬ r.getField s.keyPath = some key) →
      getObjectData s key = .ok none) := by
  constructor
  · exact ⟨_, rfl⟩
  · intro habsent
    simp only [getObjectData, Except.ok.injEq]
    rw [List.find?_eq_none]
    intro x hx
    simpa using habsent x hx

/-- C8 witness: key 9 is absent from the three-record store and `get`
resolves with `undefined`. -/
theorem claim_C8_witness :
    (∃ v, getObjectData sampleStore (.vNum 9) = .ok v) ∧
    getObjectData sampleStore (.vNum 9) = .ok none :=
  ⟨(claim_C8_get_absent sampleStore (.vNum 9)).1,
   (claim_C8_get_absent sampleStore (.vNum 9)).2 (by decide)⟩

/-! ## Claim C9: fetching a store handle from a transaction -/

/-- C9: on a transaction handle (whose construction succeeded, meaning
every scoped name exists), `getStore` rejects with the store-not-found
error for any name outside the transaction's scope or absent from the
database, and resolves with the named store's handle for any name within
the scope. -/
theorem claim_C9_getStore (db : Database) (names : List String)
    (mode : TxMode) (tx : TransactionHandler)
    (hok : transaction db names mode = .ok tx) (name : String) :
    ((name ∉ tx.scope ∨ ∀ st ∈ tx.db.stores, st.name ≠ name) →
      tx.getStore name = .error (storeNotFoundError name)) ∧
    (name ∈ tx.scope →
      ∃ st, tx.getStore name = .ok st ∧ st.name = name ∧ st ∈ db.stores) := by
  have hall : names.all (fun n => db.stores.any (fun st => st.name == n)) =
      true ∧ tx = ⟨db, names, mode⟩ := by
    by_cases h : names.all (fun n => db.stores.any (fun st => st.name == n))
    · refine ⟨h, ?_⟩
      simp only [transaction, if_pos h, Except.ok.injEq] at hok
      exact hok.symm
    · simp only [transaction, if_neg h] at hok
      cases hok
  obtain ⟨hall, htx⟩ := hall
  subst htx
  constructor
  · intro h
    rcases h with h | h
    · have hc : List.contains names name = false := by
        simpa using h
      simp only [TransactionHandler.getStore, hc, Bool.false_eq_true,
        if_false]
    · have hfind : db.stores.find? (fun st => st.name == name) = none := by
        rw [List.find?_eq_none]
        intro st hst
        simpa using h st hst
      simp only [TransactionHandler.getStore]
      by_cases hc : List.contains names name
      · simp only [hc, if_true, hfind]
      · simp only [hc, Bool.false_eq_true, if_false]
  · intro hmem
    have hex : db.stores.any (fun st => st.name == name) = true :=
      List.all_eq_true.mp hall name hmem
    rcases List.any_eq_true.mp hex with ⟨st0, hst0, hname0⟩
    have hc : List.contains names name = true := by
      simpa using hmem
    cases hfind : db.stores.find? (fun st => st.name == name) with
    | none =>
      rw [List.find?_eq_none] at hfind
      exact absurd hname0 (by simpa using hfind st0 hst0)
    | some st =>
      refine ⟨st, ?_, ?_, ?_⟩
      · simp only [TransactionHandler.getStore, hc, if_true, hfind]
      · have := List.find?_some hfind
        simpa using this
      · exact List.mem_of_find?_eq_some hfind

/-- C9 witness: a transaction scoped to "users" over the two-store
database resolves the "users" handle and rejects "posts". -/
theorem claim_C9_witness :
    (∃ st, TransactionHandler.getStore
        ⟨sampleDB, ["users"], TxMode.readonly⟩ "users" = .ok st ∧
        st.name = "users" ∧ st ∈ sampleDB.stores) ∧
    TransactionHandler.getStore ⟨sampleDB, ["users"], TxMode.readonly⟩
        "posts" = .error (storeNotFoundError "posts") := by
  have h := claim_C9_getStore sampleDB ["users"] TxMode.readonly
    ⟨sampleDB, ["users"], TxMode.readonly⟩ (by decide)
  exact ⟨(h "users").2 (by decide),
    (h "posts").1 (Or.inl (by decide))⟩

/-! ## Claim C3: insert -/

/-- C3: `insert(record)` rejects with a constraint error when the
record's primary key already exists or a unique index is violated; on
success it resolves with the full record set of the substore after the
insertion (one more record, containing the new record and every previous
one), not just the inserted key. -/
theorem claim_C3_insert (s : ObjectStore) (r : JSRecord) :
    (∀ k, r.getField s.keyPath = some k →
      (keyExistsB s k = true ∨ uniqueViolationB s r = true) →
      addObjectData s r =
        .error { message := "ConstraintError", code := none }) ∧
    (∀ all s', addObjectData s r = .ok (all, s') →
      all = s'.records ∧
      s'.records.length = s.records.length + 1 ∧
      r ∈ s'.records ∧ ∀ x ∈ s.records, x ∈ s'.records) := by
  constructor
  · intro k hk hviol
    by_cases h1 : keyExistsB s k
    · simp only [addObjectData, storeAdd, hk, h1, if_true]
      rfl
    · have h2 : uniqueViolationB s r = true :=
        hviol.resolve_left (by simpa using h1)
      simp only [addObjectData, storeAdd, hk, h1, Bool.false_eq_true,
        if_false, h2, if_true]
      rfl
  · intro all s' h
    cases hs : storeAdd s r with
    | error m => simp [addObjectData, hs] at h
    | ok p =>
      obtain ⟨k, s2⟩ := p
      simp only [addObjectData, hs, Except.ok.injEq, Prod.mk.injEq] at h
      obtain ⟨hall, hs'⟩ := h
      have hrec : s2.records = insertByKey s.keyPath r s.records := by
        unfold storeAdd at hs
        split at hs
        · cases hs
        · split at hs
          · cases hs
          · split at hs
            · cases hs
            · cases hs
              rfl
      subst hs'
      refine ⟨hall.symm, ?_, ?_, ?_⟩
      · rw [hrec, length_insertByKey]
      · rw [hrec]; exact self_mem_insertByKey _ _ _
      · intro x hx
        rw [hrec]
        exact mem_insertByKey_of_mem _ _ _ _ hx

/-- C3 witness: inserting a record with the existing key 1 rejects with
the constraint error; inserting key 4 resolves with all four records. -/
theorem claim_C3_witness :
    addObjectData sampleStore (sampleRecord 1 "x") =
      .error { message := "ConstraintError", code := none } ∧
    ∀ all s', addObjectData sampleStore (sampleRecord 4 "d") =
        .ok (all, s') → all = s'.records ∧
      s'.records.length = sampleStore.records.length + 1 ∧
      sampleRecord 4 "d" ∈ s'.records ∧
      ∀ x ∈ sampleStore.records, x ∈ s'.records :=
  ⟨(claim_C3_insert sampleStore (sampleRecord 1 "x")).1 (.vNum 1)
      (by decide) (Or.inl (by decide)),
   (claim_C3_insert sampleStore (sampleRecord 4 "d")).2⟩

/-! ## Claim C4: deleteAndReturn -/

/-- On a record list whose primary keys are pairwise distinct, the first
match for a key is the only match: `find?` returns exactly the matching
member, and filtering the key out removes exactly one record. -/
lemma delete_aux (kp : String) (key : JSValue) :
    ∀ l : List JSRecord,
    (l.map (fun r => r.getField kp)).Nodup →
    ∀ obj ∈ l, obj.getField kp = some key →
    l.find? (fun r => r.getField kp == some key) = some obj ∧
    (l.filter (fun r => !(r.getField kp == some key))).length + 1 =
      l.length := by
  intro l
  induction l with
  | nil => intro _ obj h; cases h
  | cons x xs ih =>
    intro hnd obj hmem hobj
    rw [List.map_cons, List.nodup_cons] at hnd
    obtain ⟨hx, hnd'⟩ := hnd
    by_cases hmatch : x.getField kp = some key
    · have hobjx : obj = x := by
        rcases List.mem_cons.mp hmem with h | h
        · exact h
        · have : x.getField kp ∈ xs.map (fun r => r.getField kp) := by
            rw [hmatch, ← hobj]
            exact List.mem_map_of_mem _ h
          exact absurd this hx
      have hpx : (x.getField kp == some key) = true := by
        simp [hmatch]
      have hxs : ∀ r ∈ xs, (!(r.getField kp == some key)) = true := by
        intro r hr
        simp only [Bool.not_eq_true', beq_eq_false_iff_ne, ne_eq]
        intro hcontra
        have : x.getField kp ∈ xs.map (fun r => r.getField kp) := by
          rw [hmatch, ← hcontra]
          exact List.mem_map_of_mem _ hr
        exact absurd this hx
      constructor
      · rw [hobjx]
        exact List.find?_cons_of_pos _ hpx
      · have hqx : (!(x.getField kp == some key)) = false := by simp [hpx]
        rw [List.filter_cons, hqx]
        simp only [Bool.false_eq_true, if_false]
        rw [List.filter_eq_self.mpr hxs, List.length_cons]
    · have hobjxs : obj ∈ xs := by
        rcases List.mem_cons.mp hmem with h | h
        · exact absurd (h ▸ hobj) hmatch
        · exact h
      obtain ⟨hf, hlen⟩ := ih hnd' obj hobjxs hobj
      have hpx : (x.getField kp == some key) = false := by
        simpa using hmatch
      constructor
      · rw [← hf]
        exact List.find?_cons_of_neg _ (by simp [hpx])
      · have hqx : (!(x.getField kp == some key)) = true := by simp [hpx]
        rw [List.filter_cons, hqx]
        simp only [if_true, List.length_cons]
        omega

/-- C4: on a store whose primary keys are pairwise distinct,
`deleteAndReturn(k)` with `k` absent rejects with the not-found error
and leaves the store unchanged; with `k` present it deletes that record
and resolves with the pair (deleted record, remaining records), the
remaining list being one shorter than before. -/
theorem claim_C4_deleteAndReturn (s : ObjectStore) (key : JSValue)
    (hnd : (s.records.map (fun r => r.getField s.keyPath)).Nodup) :
    ((∀ r ∈ s.records, ¬ r.getField s.keyPath = some key) →
      deleteObjectData s key =
        (.error { message := deleteNotFoundMsg key s.name
                , code := none }, s)) ∧
    (∀ obj ∈ s.records, obj.getField s.keyPath = some key →
      ∃ remaining, deleteObjectData s key =
          (.ok (obj, remaining), { s with records := remaining }) ∧
        remaining.length = s.records.length - 1) := by
  constructor
  · intro habsent
    have hfind : s.records.find?
        (fun r => r.getField s.keyPath == some key) = none := by
      rw [List.find?_eq_none]
      intro x hx
      simpa using habsent x hx
    simp only [deleteObjectData, hfind]
  · intro obj hmem hobj
    obtain ⟨hfind, hlen⟩ := delete_aux s.keyPath key s.records hnd obj hmem hobj
    refine ⟨s.records.filter (fun r => !(r.getField s.keyPath == some key)),
      ?_, ?_⟩
    · simp only [deleteObjectData, hfind]
    · omega

/-- C4 witness: deleting absent key 9 rejects and leaves the store
unchanged; deleting present key 2 returns the record and two remaining
records. -/
theorem claim_C4_witness :
    (deleteObjectData sampleStore (.vNum 9) =
      (.error { message := deleteNotFoundMsg (.vNum 9) sampleStore.name
              , code := none }, sampleStore)) ∧
    ∃ remaining, deleteObjectData sampleStore (.vNum 2) =
        (.ok (sampleRecord 2 "b", remaining),
          { sampleStore with records := remaining }) ∧
      remaining.length = sampleStore.records.length - 1 :=
  ⟨(claim_C4_deleteAndReturn sampleStore (.vNum 9) (by decide)).1 (by decide),
   (claim_C4_deleteAndReturn sampleStore (.vNum 2) (by decide)).2
     (sampleRecord 2 "b") (by decide) (by decide)⟩

/-! ## Claim C6: findAndReplace -/

/-- `find?` over a list that starts with non-matches followed by a match
returns that first match. -/
lemma find?_append_first (p : JSRecord → Bool) :
    ∀ (a : List JSRecord) (x : JSRecord) (b : List JSRecord),
    (∀ r ∈ a, p r = false) → p x = true →
    (a ++ x :: b).find? p = some x := by
  intro a
  induction a with
  | nil =>
    intro x b _ hx
    simpa using List.find?_cons_of_pos _ hx
  | cons y ys ih =>
    intro x b ha hx
    have hy : p y = false := ha y (List.mem_cons_self y ys)
    rw [List.cons_append, List.find?_cons_of_neg _ (by simp [hy])]
    exact ih x b (fun r hr => ha r (List.mem_cons_of_mem _ hr)) hx

/-- The cursor pass stops at the first matching record and performs the
host `cursor.update` there: resolution with the in-place wholesale
replacement when the new value keeps the cursor's key and violates no
unique index, a never-settling abort when the key check fails, and a
rejection with the wrapped host message on a unique-index violation. -/
lemma cursorUpdatePass_append (s : ObjectStore) (kp : String)
    (key : JSValue) (newData : JSRecord) :
    ∀ (a : List JSRecord) (x : JSRecord) (b : List JSRecord),
    (∀ r ∈ a, (r.getField kp == some key) = false) →
    (x.getField kp == some key) = true →
    cursorUpdatePass s kp key newData (a ++ x :: b) =
      (if cursorKeyMatchB s x newData then
        (if updateConstraintB s x newData then
          UpdateResult.rejected
            { message := orElseMsg "ConstraintError" "Update operation failed"
            , code := none }
        else .resolved (a ++ newData :: b))
      else .unsettled) := by
  intro a
  induction a with
  | nil =>
    intro x b _ hx
    simp only [List.nil_append, cursorUpdatePass, hx, if_true]
  | cons y ys ih =>
    intro x b ha hx
    have hy : (y.getField kp == some key) = false :=
      ha y (List.mem_cons_self y ys)
    rw [List.cons_append]
    simp only [cursorUpdatePass, hy, Bool.false_eq_true, if_false]
    rw [ih x b (fun r hr => ha r (List.mem_cons_of_mem _ hr)) hx]
    by_cases h1 : cursorKeyMatchB s x newData
    · by_cases h2 : updateConstraintB s x newData
      · simp [h1, h2]
      · simp [h1, h2]
    · simp [h1]

/-- C6: `findAndReplace(fieldName, fieldValue, newRecord)` locates the
first record (in forward-cursor order, i.e. primary-key ascending order
of the stored sequence) whose named field equals the value and performs
the host `cursor.update` there: when `newRecord` keeps that record's
primary key and violates no unique index, the stored value is replaced
entirely with `newRecord` and the operation resolves with the updated
record set; a key-changing (or keyless) `newRecord` makes the host throw
`DataError`, aborting the transaction with the promise never settling
and the store unchanged; a unique-index violation rejects with the
wrapped constraint error, store unchanged.  When no stored record
matches, the operation rejects with the descriptive not-found message of
the membership pass; and whenever the cursor pass scans a sequence in
which no record matches (the passes disagreeing about the target's
existence), that pass rejects rather than committing. -/
theorem claim_C6_findAndReplace (s : ObjectStore) (kp : String)
    (key : JSValue) (newData : JSRecord) :
    ((∀ r ∈ s.records, ¬ r.getField kp = some key) →
      updateObjectData s kp key newData =
        (.rejected { message := updateNotFoundMsg s.name kp key
                   , code := none }, s)) ∧
    (∀ a x b, s.records = a ++ x :: b →
      (∀ r ∈ a, ¬ r.getField kp = some key) →
      x.getField kp = some key →
      cursorKeyMatchB s x newData = true →
      updateConstraintB s x newData = false →
      updateObjectData s kp key newData =
        (.resolved (a ++ newData :: b),
          { s with records := a ++ newData :: b })) ∧
    (∀ a x b, s.records = a ++ x :: b →
      (∀ r ∈ a, ¬ r.getField kp = some key) →
      x.getField kp = some key →
      cursorKeyMatchB s x newData = false →
      updateObjectData s kp key newData = (.unsettled, s)) ∧
    (∀ a x b, s.records = a ++ x :: b →
      (∀ r ∈ a, ¬ r.getField kp = some key) →
      x.getField kp = some key →
      cursorKeyMatchB s x newData = true →
      updateConstraintB s x newData = true →
      updateObjectData s kp key newData =
        (.rejected { message := orElseMsg "ConstraintError"
                       "Update operation failed"
                   , code := none }, s)) ∧
    (∀ l : List JSRecord, (∀ r ∈ l, ¬ r.getField kp = some key) →
      cursorUpdatePass s kp key newData l =
        .rejected { message := updateCursorMissMsg kp key
                  , code := none }) := by
  refine ⟨?_, ?_, ?_, ?_, ?_⟩
  · intro habsent
    have hfind : s.records.find? (fun d => d.getField kp == some key) =
        none := by
      rw [List.find?_eq_none]
      intro x hx
      simpa using habsent x hx
    simp only [updateObjectData, hfind]
  · intro a x b hsplit ha hx hkeys hcon
    have hxb : (x.getField kp == some key) = true := by simp [hx]
    have hab : ∀ r ∈ a, (r.getField kp == some key) = false := by
      intro r hr
      simpa using ha r hr
    have hfind := find?_append_first
      (fun d => d.getField kp == some key) a x b hab hxb
    have hpass := cursorUpdatePass_append s kp key newData a x b hab hxb
    rw [hkeys, hcon] at hpass
    simp only [if_true, Bool.false_eq_true, if_false] at hpass
    simp only [updateObjectData, hsplit, hfind, hpass]
  · intro a x b hsplit ha hx hkeys
    have hxb : (x.getField kp == some key) = true := by simp [hx]
    have hab : ∀ r ∈ a, (r.getField kp == some key) = false := by
      intro r hr
      simpa using ha r hr
    have hfind := find?_append_first
      (fun d => d.getField kp == some key) a x b hab hxb
    have hpass := cursorUpdatePass_append s kp key newData a x b hab hxb
    rw [hkeys] at hpass
    simp only [Bool.false_eq_true, if_false] at hpass
    simp only [updateObjectData, hsplit, hfind, hpass]
  · intro a x b hsplit ha hx hkeys hcon
    have hxb : (x.getField kp == some key) = true := by simp [hx]
    have hab : ∀ r ∈ a, (r.getField kp == some key) = false := by
      intro r hr
      simpa using ha r hr
    have hfind := find?_append_first
      (fun d => d.getField kp == some key) a x b hab hxb
    have hpass := cursorUpdatePass_append s kp key newData a x b hab hxb
    rw [hkeys, hcon] at hpass
    simp only [if_true] at hpass
    simp only [updateObjectData, hsplit, hfind, hpass]
  · intro l hl
    induction l with
    | nil => rfl
    | cons x xs ih =>
      have hx : (x.getField kp == some key) = false := by
        simpa using hl x (List.mem_cons_self x xs)
      have ihx := ih (fun r hr => hl r (List.mem_cons_of_mem _ hr))
      simp only [cursorUpdatePass, hx, Bool.false_eq_true, if_false, ihx]

/-- C6 witness: replacing the record whose `name` is "b" by a record
with the same primary key rewrites it entirely; a replacement that
changes the primary key aborts without settling, leaving the store
unchanged; searching for a missing `name` rejects with the descriptive
error. -/
theorem claim_C6_witness :
    (updateObjectData sampleStore "name" (.vStr "b") (sampleRecord 2 "B") =
      (.resolved [sampleRecord 1 "a", sampleRecord 2 "B", sampleRecord 3 "c"],
        { sampleStore with records :=
            [sampleRecord 1 "a", sampleRecord 2 "B", sampleRecord 3 "c"] })) ∧
    (updateObjectData sampleStore "name" (.vStr "b") (sampleRecord 9 "z") =
      (.unsettled, sampleStore)) ∧
    (updateObjectData sampleStore "name" (.vStr "zz") (sampleRecord 9 "z") =
      (.rejected { message := updateNotFoundMsg sampleStore.name "name"
                     (.vStr "zz")
                 , code := none }, sampleStore)) := by
  refine ⟨?_, ?_, ?_⟩
  · have h := (claim_C6_findAndReplace sampleStore "name" (.vStr "b")
      (sampleRecord 2 "B")).2.1 [sampleRecord 1 "a"] (sampleRecord 2 "b")
      [sampleRecord 3 "c"] (by decide) (by decide) (by decide) (by decide)
      (by decide)
    simpa using h
  · exact (claim_C6_findAndReplace sampleStore "name" (.vStr "b")
      (sampleRecord 9 "z")).2.2.1 [sampleRecord 1 "a"] (sampleRecord 2 "b")
      [sampleRecord 3 "c"] (by decide) (by decide) (by decide) (by decide)
  · exact (claim_C6_findAndReplace sampleStore "name" (.vStr "zz")
      (sampleRecord 9 "z")).1 (by decide)

/-! ## Claim C5: seeding is idempotent -/

/-- A successful `store.add` extends the record sequence by ordered
insertion of the new record. -/
lemma storeAdd_ok_records (s : ObjectStore) (r : JSRecord) (k : JSValue)
    (s' : ObjectStore) (h : storeAdd s r = .ok (k, s')) :
    s'.records = insertByKey s.keyPath r s.records := by
  unfold storeAdd at h
  split at h
  · cases h
  · split at h
    · cases h
    · split at h
      · cases h
      · cases h
        rfl

/-- The seeding loop only ever adds records: every record present before
it runs is still present afterwards. -/
lemma seedLoop_sup (ids : List (Option JSValue)) :
    ∀ (l : List JSRecord) (s s' : ObjectStore),
    seedLoop ids s l = .ok s' → ∀ r ∈ s.records, r ∈ s'.records := by
  intro l
  induction l with
  | nil =>
    intro s s' h r hr
    simp only [seedLoop, Except.ok.injEq] at h
    exact h ▸ hr
  | cons item rest ih =>
    intro s s' h r hr
    simp only [seedLoop] at h
    by_cases hc : ids.contains (item.getField "id")
    · rw [if_pos hc] at h
      exact ih s s' h r hr
    · rw [if_neg hc] at h
      cases hadd : storeAdd s item with
      | error m => rw [hadd] at h; cases h
      | ok p =>
        obtain ⟨k, s1⟩ := p
        rw [hadd] at h
        refine ih s1 s' h r ?_
        rw [storeAdd_ok_records s item k s1 hadd]
        exact mem_insertByKey_of_mem _ _ _ _ hr

/-- After a successful seeding run, each seed item either had its `id`
in the pre-pass snapshot or was itself inserted into the store. -/
lemma seedLoop_covers (ids : List (Option JSValue)) :
    ∀ (l : List JSRecord) (s s' : ObjectStore),
    seedLoop ids s l = .ok s' →
    ∀ item ∈ l,
      ids.contains (item.getField "id") = true ∨ item ∈ s'.records := by
  intro l
  induction l with
  | nil => intro s s' _ item h; cases h
  | cons hd rest ih =>
    intro s s' h item hmem
    simp only [seedLoop] at h
    by_cases hc : ids.contains (hd.getField "id")
    · rw [if_pos hc] at h
      rcases List.mem_cons.mp hmem with h1 | h1
      · exact Or.inl (h1 ▸ hc)
      · exact ih s s' h item h1
    · rw [if_neg hc] at h
      cases hadd : storeAdd s hd with
      | error m => rw [hadd] at h; cases h
      | ok p =>
        obtain ⟨k, s1⟩ := p
        rw [hadd] at h
        rcases List.mem_cons.mp hmem with h1 | h1
        · refine Or.inr (seedLoop_sup ids rest s1 s' h item ?_)
          rw [storeAdd_ok_records s hd k s1 hadd, h1]
          exact self_mem_insertByKey _ _ _
        · exact ih s1 s' h item h1

/-- A seeding run in which every item's `id` is in the snapshot performs
no insert at all. -/
lemma seedLoop_skip_all (ids : List (Option JSValue)) :
    ∀ (l : List JSRecord) (s : ObjectStore),
    (∀ item ∈ l, ids.contains (item.getField "id") = true) →
    seedLoop ids s l = .ok s := by
  intro l
  induction l with
  | nil => intro s _; rfl
  | cons hd rest ih =>
    intro s hall
    have hc := hall hd (List.mem_cons_self hd rest)
    simp only [seedLoop, hc, if_true]
    exact ih s (fun item hi => hall item (List.mem_cons_of_mem _ hi))

/-- C5: seeding is idempotent — if opening the database seeded a store
(successfully) into state `s₁`, then running the same seeding step again
over `s₁` with the same seed records inserts nothing: every seed record's
`id` is by then among the stored records' `id` fields, so no seed record
is ever duplicated by a second open with the same version. -/
theorem claim_C5_seed_idempotent (s : ObjectStore) (data : List JSRecord)
    (s₁ : ObjectStore) (h : seedStoreData s data = .ok s₁) :
    seedStoreData s₁ data = .ok s₁ := by
  unfold seedStoreData at h ⊢
  refine seedLoop_skip_all _ data s₁ ?_
  intro item hitem
  rcases seedLoop_covers _ data s s₁ h item hitem with hc | hm
  · have hmem : item.getField "id" ∈
        s.records.map (fun r => r.getField "id") := by
      simpa using hc
    rcases List.mem_map.mp hmem with ⟨r, hr, hr2⟩
    have hr' : r ∈ s₁.records := seedLoop_sup _ data s s₁ h r hr
    have : item.getField "id" ∈
        s₁.records.map (fun r => r.getField "id") :=
      hr2 ▸ List.mem_map_of_mem _ hr'
    simpa using this
  · have : item.getField "id" ∈
        s₁.records.map (fun r => r.getField "id") :=
      List.mem_map_of_mem _ hm
    simpa using this

/-- C5 witness: seeding an empty `users` store with two records succeeds,
and reseeding the seeded store with the same records is a no-op. -/
theorem claim_C5_witness :
    seedStoreData
      { name := "users", keyPath := "id", indices := []
      , records := [sampleRecord 1 "a", sampleRecord 2 "b"] }
      [sampleRecord 1 "a", sampleRecord 2 "b"] =
    .ok
      { name := "users", keyPath := "id", indices := []
      , records := [sampleRecord 1 "a", sampleRecord 2 "b"] } :=
  claim_C5_seed_idempotent
    { name := "users", keyPath := "id", indices := [], records := [] }
    [sampleRecord 1 "a", sampleRecord 2 "b"]
    { name := "users", keyPath := "id", indices := []
    , records := [sampleRecord 1 "a", sampleRecord 2 "b"] }
    (by decide)

/-! ## Claim C7: bulkInsert -/

/-- A successful `store.add` returns the record's own primary-key field
value as the assigned key. -/
lemma storeAdd_ok_key (s : ObjectStore) (r : JSRecord) (k : JSValue)
    (s' : ObjectStore) (h : storeAdd s r = .ok (k, s')) :
    r.getField s.keyPath = some k := by
  unfold storeAdd at h
  split at h
  · cases h
  next k0 heq =>
    split at h
    · cases h
    · split at h
      · cases h
      · cases h
        exact heq

/-- The full post-state of a successful `store.add`. -/
lemma storeAdd_ok_state (s : ObjectStore) (r : JSRecord) (k : JSValue)
    (s' : ObjectStore) (h : storeAdd s r = .ok (k, s')) :
    s' = { s with records := insertByKey s.keyPath r s.records } := by
  unfold storeAdd at h
  split at h
  · cases h
  · split at h
    · cases h
    · split at h
      · cases h
      · cases h
        rfl

/-- When every add of the bulk loop succeeds, the resolved keys are the
records' own key fields in input order, and the store grows by exactly
one record per input. -/
lemma bulkAddLoop_ok_spec :
    ∀ (l : List JSRecord) (s : ObjectStore) (i : Nat) (ks : List JSValue)
      (s' : ObjectStore),
    bulkAddLoop s l i = .ok (ks, s') →
    l.map (fun r => r.getField s.keyPath) = ks.map some ∧
    s'.records.length = s.records.length + l.length := by
  intro l
  induction l with
  | nil =>
    intro s i ks s' h
    simp only [bulkAddLoop, Except.ok.injEq, Prod.mk.injEq] at h
    obtain ⟨h1, h2⟩ := h
    subst h1
    subst h2
    simp
  | cons r rest ih =>
    intro s i ks s' h
    cases hadd : storeAdd s r with
    | error m => simp [bulkAddLoop, hadd] at h
    | ok p =>
      obtain ⟨k, s1⟩ := p
      cases hrec : bulkAddLoop s1 rest (i + 1) with
      | error e => simp [bulkAddLoop, hadd, hrec] at h
      | ok q =>
        obtain ⟨ks1, s2⟩ := q
        simp only [bulkAddLoop, hadd, hrec, Except.ok.injEq,
          Prod.mk.injEq] at h
        obtain ⟨hks, hs'⟩ := h
        subst hks
        subst hs'
        have hkey := storeAdd_ok_key s r k s1 hadd
        have hstate := storeAdd_ok_state s r k s1 hadd
        obtain ⟨ih1, ih2⟩ := ih s1 (i + 1) ks1 s2 hrec
        have hkp : s1.keyPath = s.keyPath := by rw [hstate]
        constructor
        · rw [List.map_cons, List.map_cons, hkey]
          rw [hkp] at ih1
          rw [ih1]
        · have hlen1 : s1.records.length = s.records.length + 1 := by
            rw [hstate]
            exact length_insertByKey _ _ _
          simp only [List.length_cons]
          omega

/-- If the adds of a prefix all succeed and the next add fails, the bulk
loop rejects with exactly that first failure's (wrapped) error. -/
lemma bulkAddLoop_error_of_prefix :
    ∀ (l : List JSRecord) (s : ObjectStore) (j i : Nat)
      (ks : List JSValue) (s₀ : ObjectStore) (m : String),
    bulkAddLoop s (l.take i) j = .ok (ks, s₀) →
    ∀ (hi : i < l.length),
    storeAdd s₀ (l.get ⟨i, hi⟩) = .error m →
    bulkAddLoop s l j =
      .error { message := orElseMsg m
                 ("Failed to add item at index " ++ toString (j + i))
             , code := none } := by
  intro l
  induction l with
  | nil =>
    intro s j i ks s₀ m _ hi
    exact absurd hi (by simp)
  | cons r rest ih =>
    intro s j i ks s₀ m hpre hi hfail
    cases i with
    | zero =>
      simp only [List.take_zero, bulkAddLoop, Except.ok.injEq,
        Prod.mk.injEq] at hpre
      obtain ⟨_, hs⟩ := hpre
      subst hs
      simp only [List.get] at hfail
      simp only [bulkAddLoop, hfail, Nat.add_zero]
    | succ i' =>
      cases hadd : storeAdd s r with
      | error m0 =>
        simp [List.take_succ_cons, bulkAddLoop, hadd] at hpre
      | ok p =>
        obtain ⟨k, s1⟩ := p
        cases hrec : bulkAddLoop s1 (rest.take i') (j + 1) with
        | error e =>
          simp [List.take_succ_cons, bulkAddLoop, hadd, hrec] at hpre
        | ok q =>
          obtain ⟨ks1, s2⟩ := q
          simp only [List.take_succ_cons, bulkAddLoop, hadd, hrec,
            Except.ok.injEq, Prod.mk.injEq] at hpre
          obtain ⟨_, hs⟩ := hpre
          rw [hs] at hrec
          have hi' : i' < rest.length := by
            simpa using hi
          have hget : (r :: rest).get ⟨i' + 1, hi⟩ = rest.get ⟨i', hi'⟩ := rfl
          rw [hget] at hfail
          have := ih s1 (j + 1) i' ks1 s₀ m hrec hi' hfail
          have hidx : j + 1 + i' = j + (i' + 1) := by omega
          rw [hidx] at this
          simp only [bulkAddLoop, hadd, this]

/-- C7: `bulkInsert(records)` issues one insert per record in a single
transaction; when every insert succeeds it resolves with the assigned
keys in input order (each key being the corresponding record's key
field) and the store has grown by one record per input; when some insert
fails — the adds before position i having succeeded and the add at
position i failing — the whole operation rejects with that first
failure's error. -/
theorem claim_C7_bulkInsert (s : ObjectStore) (dataArray : List JSRecord) :
    (∀ ks s', bulkAddObjectData s dataArray = .ok (ks, s') →
      dataArray.map (fun r => r.getField s.keyPath) = ks.map some ∧
      s'.records.length = s.records.length + dataArray.length) ∧
    (∀ i (hi : i < dataArray.length) ks₀ s₀ m,
      bulkAddObjectData s (dataArray.take i) = .ok (ks₀, s₀) →
      storeAdd s₀ (dataArray.get ⟨i, hi⟩) = .error m →
      bulkAddObjectData s dataArray =
        .error { message := orElseMsg m
                   ("Failed to add item at index " ++ toString i)
               , code := none }) := by
  constructor
  · intro ks s' h
    exact bulkAddLoop_ok_spec dataArray s 0 ks s' h
  · intro i hi ks₀ s₀ m hpre hfail
    have := bulkAddLoop_error_of_prefix dataArray s 0 i ks₀ s₀ m hpre hi hfail
    rw [Nat.zero_add] at this
    exact this

/-- C7 witness: bulk-adding two fresh records resolves with their keys
in input order; bulk-adding a fresh record followed by a duplicate of
key 1 rejects with the constraint error of the failing insert. -/
theorem claim_C7_witness :
    ([sampleRecord 4 "d", sampleRecord 5 "e"].map
        (fun r => r.getField sampleStore.keyPath) =
      [JSValue.vNum 4, JSValue.vNum 5].map some) ∧
    bulkAddObjectData sampleStore [sampleRecord 4 "d", sampleRecord 1 "x"] =
      .error { message := orElseMsg "ConstraintError"
                 ("Failed to add item at index " ++ toString 1)
             , code := none } := by
  constructor
  · refine ((claim_C7_bulkInsert sampleStore
      [sampleRecord 4 "d", sampleRecord 5 "e"]).1
      [JSValue.vNum 4, JSValue.vNum 5]
      { name := "users", keyPath := "id"
      , indices := [⟨"email", "email", true⟩]
      , records := [sampleRecord 1 "a", sampleRecord 2 "b",
          sampleRecord 3 "c", sampleRecord 4 "d", sampleRecord 5 "e"] }
      (by decide)).1
  · exact (claim_C7_bulkInsert sampleStore
      [sampleRecord 4 "d", sampleRecord 1 "x"]).2 1 (by decide)
      [JSValue.vNum 4]
      { name := "users", keyPath := "id"
      , indices := [⟨"email", "email", true⟩]
      , records := [sampleRecord 1 "a", sampleRecord 2 "b",
          sampleRecord 3 "c", sampleRecord 4 "d"] }
      "ConstraintError" (by decide) (by decide)

/-! ## Claim C10: the wrapper's null-handle invariant -/

/-- C10: `close()` resets the held handle to null and is idempotent, and
while the handle is null `getDB()` and every record operation fail with
the "Database not initialized" `IndexedDBError`, the state-carrying
operations returning the wrapper unchanged (no stored data is touched). -/
theorem claim_C10_null_handle (u : IndexedDBUtil) :
    ((u.close).db = none ∧ u.close.close = u.close) ∧
    (u.db = none →
      u.getDB = .error notInitializedError ∧
      (∀ n k, u.get n k = .error notInitializedError) ∧
      (∀ n, u.getAll n = .error notInitializedError) ∧
      (∀ n o, u.query n o = .error notInitializedError) ∧
      (∀ n kr, u.count n kr = .error notInitializedError) ∧
      (∀ n d, u.add n d = (.error notInitializedError, u)) ∧
      (∀ n d, u.put n d = (.error notInitializedError, u)) ∧
      (∀ n ds, u.bulkAdd n ds = (.error notInitializedError, u)) ∧
      (∀ n kp k d, u.update n kp k d = (.rejected notInitializedError, u)) ∧
      (∀ n k, u.delete n k = (.error notInitializedError, u)) ∧
      (∀ n, u.clear n = (.error notInitializedError, u))) := by
  constructor
  · constructor
    · cases h : u.db <;> simp [IndexedDBUtil.close, h]
    · cases h : u.db <;> simp [IndexedDBUtil.close, h]
  · intro h
    refine ⟨?_, ?_, ?_, ?_, ?_, ?_, ?_, ?_, ?_, ?_, ?_⟩ <;>
      intros <;>
      simp [IndexedDBUtil.get, IndexedDBUtil.getAll, IndexedDBUtil.query,
        IndexedDBUtil.count, IndexedDBUtil.add, IndexedDBUtil.put,
        IndexedDBUtil.bulkAdd, IndexedDBUtil.update, IndexedDBUtil.delete,
        IndexedDBUtil.clear, IndexedDBUtil.txFor, IndexedDBUtil.getDB, h]

/-- C10 witness: on the concrete uninitialized wrapper, `getDB`, a read
operation and a write operation all fail with the not-initialized error
(the write leaving the state unchanged), and `close` is idempotent. -/
theorem claim_C10_witness :
    sampleUtil.getDB = .error notInitializedError ∧
    sampleUtil.get "users" (.vNum 1) = .error notInitializedError ∧
    sampleUtil.add "users" (sampleRecord 1 "a") =
      (.error notInitializedError, sampleUtil) ∧
    sampleUtil.close.close = sampleUtil.close := by
  have h := claim_C10_null_handle sampleUtil
  exact ⟨(h.2 rfl).1, (h.2 rfl).2.1 "users" (.vNum 1),
    (h.2 rfl).2.2.2.2.2.1 "users" (sampleRecord 1 "a"), h.1.2⟩
